import Mathlib

/-!
Verification of the life-tracking assistant (Streamlit + Gemini demo).

The development shallowly embeds the core of the repository:

* `deep_update` and the background-profile merge (`utils.py`),
* deadline normalization and task management (`utils.py`),
* log-entry creation (`utils.py`),
* the bulk task replace (`utils.py`),
* the newsletter rate limiter (`newsletter.py`),
* the conversation orchestrator `get_chat_response` (`utils.py`).

Database rows become Lean lists, SQLAlchemy sessions become explicit state
passing, wall-clock readings (`datetime.now`) become explicit parameters, and
the external model / SMTP boundaries become explicit arguments describing the
outcome of the call.
-/

set_option maxHeartbeats 1000000
set_option linter.unusedVariables false
set_option linter.unreachableTactic false
set_option linter.unnecessarySeqFocus false
set_option linter.unusedTactic false

/-! ### JSON documents

Python JSON-like values (`json.loads` output) as manipulated by `deep_update`
in `utils.py`.  A dict is an insertion-ordered association list, as in
CPython; numbers are modelled as integers, which covers every profile
document the system builds. -/

inductive Json where
  | null
  | bool (b : Bool)
  | num (n : Int)
  | str (s : String)
  | arr (items : List Json)
  | obj (fields : List (String × Json))

mutual
/-- Python `==` on JSON-like values (structural equality). -/
def jsonBEq : Json → Json → Bool
  | .null, .null => true
  | .bool a, .bool b => a == b
  | .num a, .num b => a == b
  | .str a, .str b => a == b
  | .arr a, .arr b => jsonListBEq a b
  | .obj a, .obj b => jsonFieldsBEq a b
  | _, _ => false
  termination_by a _ => sizeOf a

def jsonListBEq : List Json → List Json → Bool
  | [], [] => true
  | x :: xs, y :: ys => jsonBEq x y && jsonListBEq xs ys
  | _, _ => false
  termination_by a _ => sizeOf a

def jsonFieldsBEq : List (String × Json) → List (String × Json) → Bool
  | [], [] => true
  | (k, v) :: xs, (k', v') :: ys => k == k' && jsonBEq v v' && jsonFieldsBEq xs ys
  | _, _ => false
  termination_by a _ => sizeOf a
end

/-- Python `item in l` for a list of JSON values. -/
def memB (item : Json) (l : List Json) : Bool :=
  l.any (fun el => jsonBEq item el)

theorem jsonBEq_refl : ∀ a : Json, jsonBEq a a = true := by
  have main : ∀ n, (∀ a : Json, sizeOf a ≤ n → jsonBEq a a = true) ∧
      (∀ l : List Json, sizeOf l ≤ n → jsonListBEq l l = true) ∧
      (∀ l : List (String × Json), sizeOf l ≤ n → jsonFieldsBEq l l = true) := by
    intro n
    induction n using Nat.strong_induction_on with
    | _ n ih =>
      refine ⟨fun a ha => ?_, fun l hl => ?_, fun l hl => ?_⟩
      · cases a with
        | null => simp [jsonBEq]
        | bool b => simp [jsonBEq]
        | num m => simp [jsonBEq]
        | str s => simp [jsonBEq]
        | arr items =>
          have hs : sizeOf items < n := by
            have : sizeOf items < sizeOf (Json.arr items) := by simp <;> omega
            omega
          have := (ih (sizeOf items) hs).2.1 items (le_refl _)
          simpa [jsonBEq] using this
        | obj fields =>
          have hs : sizeOf fields < n := by
            have : sizeOf fields < sizeOf (Json.obj fields) := by simp <;> omega
            omega
          have := (ih (sizeOf fields) hs).2.2 fields (le_refl _)
          simpa [jsonBEq] using this
      · cases l with
        | nil => simp [jsonListBEq]
        | cons x xs =>
          have hx : sizeOf x < n := by
            have : sizeOf x < sizeOf (x :: xs) := by simp <;> omega
            omega
          have hxs : sizeOf xs < n := by
            have : sizeOf xs < sizeOf (x :: xs) := by simp <;> omega
            omega
          have h1 := (ih (sizeOf x) hx).1 x (le_refl _)
          have h2 := (ih (sizeOf xs) hxs).2.1 xs (le_refl _)
          simp [jsonListBEq, h1, h2]
      · cases l with
        | nil => simp [jsonFieldsBEq]
        | cons p xs =>
          obtain ⟨k, v⟩ := p
          have hv : sizeOf v < n := by
            have : sizeOf v < sizeOf ((k, v) :: xs) := by simp <;> omega
            omega
          have hxs : sizeOf xs < n := by
            have : sizeOf xs < sizeOf ((k, v) :: xs) := by simp <;> omega
            omega
          have h1 := (ih (sizeOf v) hv).1 v (le_refl _)
          have h2 := (ih (sizeOf xs) hxs).2.2 xs (le_refl _)
          simp [jsonFieldsBEq, h1, h2]
  intro a
  exact (main (sizeOf a)).1 a (le_refl _)

/-- `source.get(key)`: first binding of `key` in an insertion-ordered dict. -/
def objGet : List (String × Json) → String → Option Json
  | [], _ => none
  | (k', v) :: rest, k => if k' = k then some v else objGet rest k

/-- `source[key] = value`: replace the binding in place, else append at end. -/
def objSet : List (String × Json) → String → Json → List (String × Json)
  | [], k, v => [(k, v)]
  | (k', v') :: rest, k, v =>
      if k' = k then (k, v) :: rest else (k', v') :: objSet rest k v

/-- `source[key].extend(item for item in value if item not in source[key])`:
CPython evaluates the generator while extending, so the membership test sees
the list as it grows and duplicates inside `items` are collapsed as well. -/
def extendUnique (base : List Json) (items : List Json) : List Json :=
  items.foldl (fun acc item => if memB item acc then acc else acc ++ [item]) base

/-- `existing_dict = source.get(key, {}); if not isinstance(existing_dict, dict):
existing_dict = {}`. -/
def oldObjFields : Option Json → List (String × Json)
  | some (.obj e) => e
  | _ => []

/-- `if key not in source or not isinstance(source.get(key), list):
source[key] = []`, before the extend. -/
def oldArrItems : Option Json → List Json
  | some (.arr xs) => xs
  | _ => []

mutual
/-- The value one iteration of `deep_update`'s loop stores at its key:
a non-empty dict recurses into the existing dict (or a fresh one), a
non-empty list extends the existing list (or a fresh one) with the items not
already present, and everything else (scalars, `None`, empty dict, empty
list) is stored as-is. -/
def dUOVal : Option Json → Json → Json
  | old, .obj (f :: fs) => .obj (deep_update (oldObjFields old) (f :: fs))
  | old, .arr (i :: is) => .arr (extendUnique (oldArrItems old) (i :: is))
  | _, v => v
  termination_by _ v => sizeOf v

/-- `deep_update(source, overrides)` from `utils.py`, on the field lists of
two JSON objects: iterate over the items of `overrides` in order, updating
`source` key by key. -/
def deep_update : List (String × Json) → List (String × Json) → List (String × Json)
  | source, [] => source
  | source, (k, v) :: rest =>
      deep_update (objSet source k (dUOVal (objGet source k) v)) rest
  termination_by _ o => sizeOf o
end

/-- Does the dict have a binding for `k`? (`key in source`). -/
def hasKey : List (String × Json) → String → Bool
  | [], _ => false
  | (k', _) :: rest, k => k' == k || hasKey rest k

/-- The keys of the association list are pairwise distinct, as they are for
every Python dict. -/
def distinctKeys : List (String × Json) → Bool
  | [] => true
  | (k, _) :: rest => !(hasKey rest k) && distinctKeys rest

mutual
/-- The value is a faithful image of a Python value: every object inside it
has pairwise distinct keys. -/
def wfJson : Json → Bool
  | .arr items => wfItems items
  | .obj fields => distinctKeys fields && wfFields fields
  | _ => true
  termination_by v => sizeOf v

def wfItems : List Json → Bool
  | [] => true
  | x :: xs => wfJson x && wfItems xs
  termination_by l => sizeOf l

def wfFields : List (String × Json) → Bool
  | [] => true
  | (_, v) :: rest => wfJson v && wfFields rest
  termination_by l => sizeOf l
end

/-- The field list of a patch document is the image of a Python dict:
distinct keys at the top level and in every nested object. -/
def wfPatch (o : List (String × Json)) : Bool :=
  distinctKeys o && wfFields o

/-! ### Lemmas about the merge primitives -/

theorem memB_append (x : Json) (a b : List Json) :
    memB x (a ++ b) = (memB x a || memB x b) := by
  simp [memB, List.any_append]

theorem extendUnique_cons (b : List Json) (a : Json) (i : List Json) :
    extendUnique b (a :: i)
      = extendUnique (if memB a b then b else b ++ [a]) i := by
  simp [extendUnique]

theorem memB_extendUnique_mono (i : List Json) :
    ∀ b x, memB x b = true → memB x (extendUnique b i) = true := by
  induction i with
  | nil => intro b x h; simpa [extendUnique] using h
  | cons a i ih =>
    intro b x h
    rw [extendUnique_cons]
    apply ih
    by_cases ha : memB a b = true
    · simp [ha, h]
    · simp only [Bool.not_eq_true] at ha
      simp [ha, memB_append, h]

theorem memB_extendUnique_self (i : List Json) :
    ∀ b x, x ∈ i → memB x (extendUnique b i) = true := by
  induction i with
  | nil => intro b x h; cases h
  | cons a i ih =>
    intro b x h
    rw [extendUnique_cons]
    rcases List.mem_cons.mp h with rfl | hx
    · apply memB_extendUnique_mono
      by_cases ha : memB x b = true
      · rw [if_pos ha]; exact ha
      · simp only [Bool.not_eq_true] at ha
        rw [show (if memB x b = true then b else b ++ [x]) = b ++ [x] by
          simp [ha]]
        rw [memB_append, ha]
        simp [memB, jsonBEq_refl]
    · exact ih _ x hx

theorem extendUnique_of_all_mem (i : List Json) :
    ∀ b, (∀ x ∈ i, memB x b = true) → extendUnique b i = b := by
  induction i with
  | nil => intro b _; simp [extendUnique]
  | cons a i ih =>
    intro b h
    rw [extendUnique_cons]
    have ha : memB a b = true := h a (List.mem_cons_self a i)
    rw [if_pos ha]
    exact ih b (fun x hx => h x (List.mem_cons_of_mem a hx))

theorem extendUnique_idem (b i : List Json) :
    extendUnique (extendUnique b i) i = extendUnique b i :=
  extendUnique_of_all_mem i _ (fun x hx => memB_extendUnique_self i b x hx)

theorem objGet_objSet_self (l : List (String × Json)) (k : String) (v : Json) :
    objGet (objSet l k v) k = some v := by
  induction l with
  | nil => simp [objGet, objSet]
  | cons p rest ih =>
    obtain ⟨k', v'⟩ := p
    by_cases h : k' = k
    · simp [objGet, objSet, h]
    · simp [objGet, objSet, h, ih]

theorem objGet_objSet_ne (l : List (String × Json)) (k k' : String) (v : Json)
    (h : k' ≠ k) : objGet (objSet l k' v) k = objGet l k := by
  induction l with
  | nil => simp [objGet, objSet, h]
  | cons p rest ih =>
    obtain ⟨k'', v''⟩ := p
    by_cases h2 : k'' = k'
    · subst h2
      have hkk : ¬(k'' = k) := fun hh => h (hh ▸ rfl)
      simp [objGet, objSet, hkk]
    · by_cases h3 : k'' = k
      · subst h3
        simp [objGet, objSet, h2]
      · simp [objGet, objSet, h2, h3, ih]

theorem objSet_objGet_eq (l : List (String × Json)) (k : String) (v : Json)
    (h : objGet l k = some v) : objSet l k v = l := by
  induction l with
  | nil => simp [objGet] at h
  | cons p rest ih =>
    obtain ⟨k', v'⟩ := p
    by_cases h2 : k' = k
    · subst h2
      simp [objGet] at h
      simp [objSet, h]
    · simp [objGet, h2] at h
      simp [objSet, h2, ih h]

theorem objGet_deep_update_of_not_hasKey (o : List (String × Json)) (k : String)
    (h : hasKey o k = false) :
    ∀ s, objGet (deep_update s o) k = objGet s k := by
  induction o with
  | nil => intro s; simp [deep_update]
  | cons p rest ih =>
    obtain ⟨k', v⟩ := p
    intro s
    simp only [hasKey, Bool.or_eq_false_iff, beq_eq_false_iff_ne] at h
    rw [show deep_update s ((k', v) :: rest)
          = deep_update (objSet s k' (dUOVal (objGet s k') v)) rest by
        simp [deep_update]]
    rw [ih h.2]
    exact objGet_objSet_ne _ _ _ _ h.1

/-- The two halves of the idempotence argument, by strong induction on size:
re-applying one loop iteration's stored value is a no-op, and re-applying a
whole patch is a no-op. -/
theorem deep_update_idem_aux : ∀ n : Nat,
    (∀ v : Json, sizeOf v ≤ n → wfJson v = true →
      ∀ old, dUOVal (some (dUOVal old v)) v = dUOVal old v) ∧
    (∀ o : List (String × Json), sizeOf o ≤ n →
      distinctKeys o = true → wfFields o = true →
      ∀ s, deep_update (deep_update s o) o = deep_update s o) := by
  intro n
  induction n using Nat.strong_induction_on with
  | _ n ih =>
    constructor
    · intro v hv hw old
      cases v with
      | null => simp [dUOVal]
      | bool b => simp [dUOVal]
      | num m => simp [dUOVal]
      | str s => simp [dUOVal]
      | arr items =>
        cases items with
        | nil => simp [dUOVal]
        | cons i is =>
          simp only [dUOVal, oldArrItems]
          rw [extendUnique_idem]
      | obj fields =>
        cases fields with
        | nil => simp [dUOVal]
        | cons f fs =>
          simp only [dUOVal, oldObjFields]
          simp only [wfJson, Bool.and_eq_true] at hw
          have hsz : sizeOf (f :: fs) < n := by
            have h1 : sizeOf (f :: fs) < sizeOf (Json.obj (f :: fs)) := by
              simp <;> omega
            omega
          have := (ih (sizeOf (f :: fs)) hsz).2 (f :: fs) (le_refl _) hw.1 hw.2
          rw [this]
    · intro o ho hd hw s
      cases o with
      | nil => simp [deep_update]
      | cons p rest =>
        obtain ⟨k, v⟩ := p
        simp only [distinctKeys, Bool.and_eq_true, Bool.not_eq_true',
          Bool.not_eq_true] at hd
        simp only [wfFields, Bool.and_eq_true] at hw
        have hvn : sizeOf v < n := by
          have : sizeOf v < sizeOf ((k, v) :: rest) := by simp <;> omega
          omega
        have hrn : sizeOf rest < n := by
          have : sizeOf rest < sizeOf ((k, v) :: rest) := by simp <;> omega
          omega
        have hval := (ih (sizeOf v) hvn).1 v (le_refl _) hw.1
        have hrest := (ih (sizeOf rest) hrn).2 rest (le_refl _) hd.2 hw.2
        rw [show deep_update s ((k, v) :: rest)
              = deep_update (objSet s k (dUOVal (objGet s k) v)) rest by
            simp [deep_update]]
        set s₁ := objSet s k (dUOVal (objGet s k) v) with hs₁
        rw [show deep_update (deep_update s₁ rest) ((k, v) :: rest)
              = deep_update (objSet (deep_update s₁ rest) k
                  (dUOVal (objGet (deep_update s₁ rest) k) v)) rest by
            simp [deep_update]]
        have hget : objGet (deep_update s₁ rest) k
            = some (dUOVal (objGet s k) v) := by
          rw [objGet_deep_update_of_not_hasKey rest k hd.1]
          exact objGet_objSet_self _ _ _
        rw [hget, hval, objSet_objGet_eq _ _ _ hget]
        exact hrest _

/-! ### The specified merge, for comparison (claim C4)

`deepMergeSpecVal`/`deepMergeSpec` follow the WORDS OF THE SPECIFICATION
(§4.2): at each key of patch, if both the base value and the patch value are
mappings the merge recurses, if both are sequences the patch elements not
already present are appended, otherwise the patch value replaces the base
value.  They exist only to be compared with `deep_update`, the definition
translated from the code. -/

mutual
def deepMergeSpecVal : Option Json → Json → Json
  | some (.obj b), .obj p => .obj (deepMergeSpec b p)
  | some (.arr b), .arr p => .arr (extendUnique b p)
  | _, v => v
  termination_by _ v => sizeOf v

def deepMergeSpec : List (String × Json) → List (String × Json) → List (String × Json)
  | base, [] => base
  | base, (k, v) :: rest =>
      deepMergeSpec (objSet base k (deepMergeSpecVal (objGet base k) v)) rest
  termination_by _ o => sizeOf o
end

/-- What `deep_update` leaves at each key, as a lookup: fold the patch over
the source and read any single key off the result. -/
theorem deep_update_objGet_aux (o : List (String × Json)) :
    distinctKeys o = true → ∀ s k,
    objGet (deep_update s o) k =
      match objGet o k with
      | some v => some (dUOVal (objGet s k) v)
      | none => objGet s k := by
  induction o with
  | nil => intro _ s k; simp [deep_update, objGet]
  | cons p rest ih =>
    intro hd s k
    obtain ⟨k', v⟩ := p
    simp only [distinctKeys, Bool.and_eq_true, Bool.not_eq_true',
      Bool.not_eq_true] at hd
    rw [show deep_update s ((k', v) :: rest)
          = deep_update (objSet s k' (dUOVal (objGet s k') v)) rest by
        simp [deep_update]]
    by_cases hk : k' = k
    · subst hk
      rw [objGet_deep_update_of_not_hasKey rest k' hd.1]
      rw [objGet_objSet_self]
      simp [objGet]
    · rw [ih hd.2]
      have hset : objGet (objSet s k' (dUOVal (objGet s k') v)) k = objGet s k :=
        objGet_objSet_ne _ _ _ _ hk
      rw [show objGet ((k', v) :: rest) k = objGet rest k by simp [objGet, hk]]
      cases objGet rest k with
      | none => simpa using hset
      | some w => simp [hset]

/-- C4: CORRECTED.  The claim says that at each key of the patch the merge
recurses when BOTH values are mappings, appends when both are sequences, and
otherwise replaces.  The code instead branches on the PATCH value alone, and
sends empty mappings and empty sequences to the replace branch: for
base = a maps to x maps to 1 and patch = a maps to the empty mapping, both
values at key a are mappings, so the specified merge keeps the base entry,
but `deep_update` stores the empty mapping, erasing it. -/
theorem C4_deep_update_counterexample :
    deep_update [("a", Json.obj [("x", Json.num 1)])] [("a", Json.obj [])]
        = [("a", Json.obj [])]
    ∧ deepMergeSpec [("a", Json.obj [("x", Json.num 1)])] [("a", Json.obj [])]
        = [("a", Json.obj [("x", Json.num 1)])]
    ∧ deep_update [("a", Json.obj [("x", Json.num 1)])] [("a", Json.obj [])]
        ≠ deepMergeSpec [("a", Json.obj [("x", Json.num 1)])] [("a", Json.obj [])] := by
  refine ⟨?_, ?_, ?_⟩ <;>
    simp [deep_update, dUOVal, deepMergeSpec, deepMergeSpecVal, objGet, objSet]

/-- C4 (amended): at each key of a patch with distinct keys, `deep_update`
behaves as follows.  A key absent from the patch keeps its base value.  At a
key of the patch: a NON-EMPTY mapping patch value recurses into the base
value when that is a mapping and into an empty mapping otherwise; a
NON-EMPTY sequence patch value appends its elements not already present to
the base sequence when the base value is a sequence and to the empty
sequence otherwise (duplicates inside the patch collapsed); every other
patch value — scalars, null, the EMPTY mapping and the EMPTY sequence —
replaces the base value outright. -/
theorem C4_deep_update_per_key (s o : List (String × Json))
    (hd : distinctKeys o = true) (k : String) :
    objGet (deep_update s o) k =
      match objGet o k with
      | none => objGet s k
      | some (.obj (f :: fs)) =>
          some (.obj (deep_update (oldObjFields (objGet s k)) (f :: fs)))
      | some (.arr (i :: is)) =>
          some (.arr (extendUnique (oldArrItems (objGet s k)) (i :: is)))
      | some v => some v := by
  rw [deep_update_objGet_aux o hd s k]
  cases hv : objGet o k with
  | none => simp
  | some v =>
    cases v with
    | null => simp [dUOVal]
    | bool b => simp [dUOVal]
    | num m => simp [dUOVal]
    | str st => simp [dUOVal]
    | arr items => cases items <;> simp [dUOVal]
    | obj fields => cases fields <;> simp [dUOVal]

/-- Witness for C4_deep_update_per_key at a concrete input: merging
goals = [x, y] over goals = [x] leaves goals = [x, y] at the key. -/
theorem C4_deep_update_per_key_witness :
    distinctKeys [("goals", Json.arr [Json.str "x", Json.str "y"])] = true
    ∧ objGet (deep_update [("goals", Json.arr [Json.str "x"])]
        [("goals", Json.arr [Json.str "x", Json.str "y"])]) "goals"
      = some (Json.arr [Json.str "x", Json.str "y"]) := by
  have hd : distinctKeys [("goals", Json.arr [Json.str "x", Json.str "y"])] = true := by
    simp [distinctKeys, hasKey]
  refine ⟨hd, ?_⟩
  rw [C4_deep_update_per_key [("goals", Json.arr [Json.str "x"])] _ hd "goals"]
  simp [objGet, oldArrItems, extendUnique, memB, jsonBEq]

/-- C5: CONFIRMED.  `deep_update` is idempotent: re-applying the same patch
(any image of a Python dict, so with distinct keys at every level) to an
already-merged document changes nothing. -/
theorem C5_deep_update_idempotent (s o : List (String × Json))
    (h : wfPatch o = true) :
    deep_update (deep_update s o) o = deep_update s o := by
  have h' := h
  simp only [wfPatch, Bool.and_eq_true] at h'
  exact (deep_update_idem_aux (sizeOf o)).2 o (le_refl _) h'.1 h'.2 s

/-- Witness for C5_deep_update_idempotent at a concrete input. -/
theorem C5_deep_update_idempotent_witness :
    wfPatch [("goals", Json.arr [Json.str "x", Json.str "y"]),
        ("user_profile", Json.obj [("age", Json.num 30)])] = true
    ∧ deep_update
        (deep_update [("goals", Json.arr [Json.str "x"])]
          [("goals", Json.arr [Json.str "x", Json.str "y"]),
           ("user_profile", Json.obj [("age", Json.num 30)])])
        [("goals", Json.arr [Json.str "x", Json.str "y"]),
         ("user_profile", Json.obj [("age", Json.num 30)])]
      = deep_update [("goals", Json.arr [Json.str "x"])]
          [("goals", Json.arr [Json.str "x", Json.str "y"]),
           ("user_profile", Json.obj [("age", Json.num 30)])] := by
  have hw : wfPatch [("goals", Json.arr [Json.str "x", Json.str "y"]),
      ("user_profile", Json.obj [("age", Json.num 30)])] = true := by
    simp [wfPatch, distinctKeys, hasKey, wfFields, wfJson, wfItems]
  exact ⟨hw, C5_deep_update_idempotent _ _ hw⟩

/-! ### Date-time values and deadline parsing

`manage_tasks_and_persist_impl` normalizes a deadline string with
`datetime.fromisoformat(deadline.replace("Z", "+00:00"))`, falling back to
`datetime.strptime(deadline, "%Y-%m-%d")` combined with the current UTC
time-of-day.  `PyDateTime` models a `datetime.datetime`; `tzOffsetMinutes =
none` models a naive datetime.  The ISO parser covers the grammar
YYYY-MM-DD[<any one separator char>HH:MM[:SS[.1-6 digits]][+HH:MM or
-HH:MM]] of CPython 3.11+ `fromisoformat`; the `strptime` parser covers
%Y-%m-%d exactly (4-digit year, 1-2 digit month and day). -/

structure PyDateTime where
  year : Nat
  month : Nat
  day : Nat
  hour : Nat
  minute : Nat
  second : Nat
  microsecond : Nat
  tzOffsetMinutes : Option Int
deriving DecidableEq, Repr

def digitVal (c : Char) : Nat := c.toNat - 48

/-- Two mandatory digits. -/
def d2 (a b : Char) : Option Nat :=
  if a.isDigit && b.isDigit then some (digitVal a * 10 + digitVal b) else none

/-- Four mandatory digits. -/
def d4 (a b c d : Char) : Option Nat :=
  if a.isDigit && b.isDigit && c.isDigit && d.isDigit then
    some (digitVal a * 1000 + digitVal b * 100 + digitVal c * 10 + digitVal d)
  else none

def isLeapYear (y : Nat) : Bool :=
  (y % 4 == 0 && y % 100 != 0) || y % 400 == 0

def daysInMonth (y m : Nat) : Nat :=
  if m = 2 then (if isLeapYear y then 29 else 28)
  else if m = 4 || m = 6 || m = 9 || m = 11 then 30
  else 31

/-- A real calendar date accepted by `datetime.date`. -/
def validDate (y m d : Nat) : Bool :=
  1 ≤ y && y ≤ 9999 && 1 ≤ m && m ≤ 12 && 1 ≤ d && d ≤ daysInMonth y m

def takeDigits : List Char → (List Char × List Char)
  | [] => ([], [])
  | c :: cs =>
      if c.isDigit then
        let p := takeDigits cs
        (c :: p.1, p.2)
      else ([], c :: cs)

def digitsToNat (ds : List Char) : Nat :=
  ds.foldl (fun n c => n * 10 + digitVal c) 0

/-- One to six fractional digits, scaled to microseconds. -/
def microOfFrac (ds : List Char) : Option Nat :=
  if ds.length = 0 || 6 < ds.length then none
  else some (digitsToNat ds * 10 ^ (6 - ds.length))

/-- Trailing timezone: nothing (naive), or +HH:MM / -HH:MM. -/
def parseTz : List Char → Option (Option Int)
  | [] => some none
  | c :: h1 :: h2 :: ':' :: m1 :: m2 :: [] =>
      if c = '+' || c = '-' then
        match d2 h1 h2, d2 m1 m2 with
        | some hh, some mm =>
            if hh ≤ 23 && mm ≤ 59 then
              some (some ((if c = '-' then (-1 : Int) else 1) * (hh * 60 + mm)))
            else none
        | _, _ => none
      else none
  | _ => none

/-- HH:MM[:SS[.frac]] and then the timezone. -/
def parseTimePart : List Char → Option (Nat × Nat × Nat × Nat × Option Int)
  | h1 :: h2 :: ':' :: mi1 :: mi2 :: rest =>
      match d2 h1 h2, d2 mi1 mi2 with
      | some hh, some mi =>
          if hh ≤ 23 && mi ≤ 59 then
            match rest with
            | ':' :: s1 :: s2 :: rest2 =>
                match d2 s1 s2 with
                | some ss =>
                    if ss ≤ 59 then
                      match rest2 with
                      | '.' :: rest3 =>
                          let p := takeDigits rest3
                          match microOfFrac p.1 with
                          | some mic => (parseTz p.2).map (fun tz => (hh, mi, ss, mic, tz))
                          | none => none
                      | _ => (parseTz rest2).map (fun tz => (hh, mi, ss, 0, tz))
                    else none
                | none => none
            | _ => (parseTz rest).map (fun tz => (hh, mi, 0, 0, tz))
          else none
      | _, _ => none
  | _ => none

/-- `datetime.fromisoformat` (CPython 3.11+ core grammar): a date alone parses
to midnight naive; a date, any one separator character and a time parses to
that time. -/
def parseIso (s : String) : Option PyDateTime :=
  match s.data with
  | y1 :: y2 :: y3 :: y4 :: '-' :: m1 :: m2 :: '-' :: dd1 :: dd2 :: rest =>
      match d4 y1 y2 y3 y4, d2 m1 m2, d2 dd1 dd2 with
      | some y, some m, some d =>
          if validDate y m d then
            match rest with
            | [] => some ⟨y, m, d, 0, 0, 0, 0, none⟩
            | _ :: timeCs =>
                match parseTimePart timeCs with
                | some (hh, mi, ss, mic, tz) => some ⟨y, m, d, hh, mi, ss, mic, tz⟩
                | none => none
          else none
      | _, _, _ => none
  | _ => none

/-- Split a character list at every dash (Python `re` alternation over the
dash-separated groups of "%Y-%m-%d"). -/
def splitDash (cs : List Char) : List (List Char) :=
  cs.foldr
    (fun c acc =>
      if c = '-' then [] :: acc
      else match acc with
        | g :: rest => (c :: g) :: rest
        | [] => [[c]])
    [[]]

def allDigits (cs : List Char) : Bool := cs.all Char.isDigit

/-- `datetime.strptime(deadline, "%Y-%m-%d")`: exactly four year digits, one
or two month digits, one or two day digits, and a real calendar date. -/
def parseYmd (s : String) : Option (Nat × Nat × Nat) :=
  match splitDash s.data with
  | [ys, ms, ds] =>
      if ys.length = 4 && allDigits ys
          && 1 ≤ ms.length && ms.length ≤ 2 && allDigits ms
          && 1 ≤ ds.length && ds.length ≤ 2 && allDigits ds then
        let y := digitsToNat ys
        let m := digitsToNat ms
        let d := digitsToNat ds
        if validDate y m d then some (y, m, d) else none
      else none
  | _ => none

/-- `deadline.replace("Z", "+00:00")`. -/
def replaceZ (s : String) : String :=
  String.mk (s.data.foldr
    (fun c acc =>
      if c = 'Z' then '+' :: '0' :: '0' :: ':' :: '0' :: '0' :: acc else c :: acc)
    [])

/-- The deadline normalization of `manage_tasks_and_persist_impl` (both the
`add` and the `update` branch): try `fromisoformat` on the Z-normalized
string; on failure try `strptime("%Y-%m-%d")` and combine the date with the
current UTC time-of-day (`datetime.combine(d, now_time, tzinfo=utc)`); on
failure report the invalid-deadline error (`none`). -/
def parseDeadline (deadline : String) (now : PyDateTime) : Option PyDateTime :=
  match parseIso (replaceZ deadline) with
  | some d => some d
  | none =>
      match parseYmd deadline with
      | some (y, m, d) =>
          some ⟨y, m, d, now.hour, now.minute, now.second, now.microsecond, some 0⟩
      | none => none

/-! ### Tasks

`models.py` validates every status assignment against open / in_progress /
completed (raising `ValueError` otherwise), `manage_tasks_and_persist_impl`
in `utils.py` adds, updates and lists tasks, and `update_tasks_and_persist`
is the bulk replace used by the task table editor.  Timestamps written by
the database (`created_at`, `completed_at`) are an abstract clock value
`nowTs : Nat` passed by the caller. -/

namespace Tracker

def validStatuses : List String := ["open", "in_progress", "completed"]

/-- Python truthiness of an optional string argument (`if task_status:`):
false for `None` and for the empty string. -/
def strTruthy : Option String → Bool
  | none => false
  | some s => !(s == "")

structure Task where
  id : Nat
  user_id : Nat
  description : String
  status : String
  created_at : Nat
  deadline : Option PyDateTime
  completed_at : Option Nat
deriving DecidableEq, Repr

structure TaskStore where
  tasks : List Task
  nextId : Nat
deriving DecidableEq, Repr

/-- A result dict of `manage_tasks_and_persist_impl` /
`update_tasks_and_persist`: an error, a success with a message (and the
serialized task when one is returned), or the task listing. -/
inductive MTResult where
  | err (message : String)
  | ok (message : String) (task : Option Task)
  | okList (tasks : List Task)
deriving DecidableEq, Repr

/-- The `case` expression ordering the `list` action: in_progress, open,
completed, anything else last. -/
def statusRank (s : String) : Nat :=
  if s == "in_progress" then 0
  else if s == "open" then 1
  else if s == "completed" then 2
  else 3

/-- The ORDER BY of the `list` action: by status rank, then by most recent
creation first. -/
def taskListLE (a b : Task) : Prop :=
  statusRank a.status < statusRank b.status ∨
    (statusRank a.status = statusRank b.status ∧ b.created_at ≤ a.created_at)

instance : DecidableRel taskListLE := fun a b => by
  unfold taskListLE; infer_instance

instance : IsTotal Task taskListLE := by
  constructor; intro a b; unfold taskListLE; omega

instance : IsTrans Task taskListLE := by
  constructor; intro a b c; unfold taskListLE; omega

def pad2 (n : Nat) : String := if n < 10 then "0" ++ toString n else toString n

def pad4 (n : Nat) : String :=
  (if n < 10 then "000" else if n < 100 then "00" else if n < 1000 then "0" else "")
    ++ toString n

/-- `strftime('%Y-%m-%d %H:%M')`. -/
def fmtYmdHm (d : PyDateTime) : String :=
  pad4 d.year ++ "-" ++ pad2 d.month ++ "-" ++ pad2 d.day ++ " "
    ++ pad2 d.hour ++ ":" ++ pad2 d.minute

/-- `manage_tasks_and_persist_impl(action, user, task_description, task_id,
task_status, deadline)` from `utils.py`.  `now` is the UTC wall clock used
by the deadline normalizer, `nowTs` the timestamp the database would write.
An invalid status string in the update branch models the `ValueError`
raised by the validator in `models.py`: the session is never committed, so
the store is unchanged. -/
def manage_tasks_and_persist_impl (action : String) (uid : Nat)
    (task_description : Option String) (task_id : Option Nat)
    (task_status : Option String) (deadline : Option String)
    (now : PyDateTime) (nowTs : Nat) (store : TaskStore) : MTResult × TaskStore :=
  if action == "add" then
    if !(strTruthy task_description) then
      (.err "Task description is required to add a task.", store)
    else
      let desc := task_description.getD ""
      let parsed : Option (Option PyDateTime) :=
        if strTruthy deadline then
          match parseDeadline (deadline.getD "") now with
          | some d => some (some d)
          | none => none
        else some none
      match parsed with
      | none => (.err "Invalid deadline format. Please use ISO format or YYYY-MM-DD.", store)
      | some task_deadline =>
          let new_task : Task :=
            ⟨store.nextId, uid, desc, "open", nowTs, task_deadline, none⟩
          let msg := "Task added successfully!  \n- **Description:** '" ++ desc ++ "'"
              ++ (match task_deadline with
                  | some d => "  \n- **Deadline:** " ++ fmtYmdHm d
                  | none => "")
          (.ok msg (some new_task), ⟨store.tasks ++ [new_task], store.nextId + 1⟩)
  else if action == "update" then
    match task_id with
    | none => (.err "Task ID is required to update a task.", store)
    | some tid =>
        match store.tasks.find? (fun t => t.id == tid && t.user_id == uid) with
        | none => (.err ("Task with ID " ++ toString tid ++ " not found."), store)
        | some task =>
            if strTruthy task_status && !(validStatuses.contains (task_status.getD "")) then
              (.err ("Invalid status: " ++ task_status.getD ""), store)
            else
              let task1 :=
                if strTruthy task_status then
                  { task with
                    status := task_status.getD "",
                    completed_at :=
                      if task_status.getD "" == "completed" then some nowTs else none }
                else task
              let parsedDl : Option (Option PyDateTime) :=
                if strTruthy deadline then
                  match parseDeadline (deadline.getD "") now with
                  | some d => some (some d)
                  | none => none
                else some none
              match parsedDl with
              | none =>
                  (.err "Invalid deadline format. Please use ISO format or YYYY-MM-DD.", store)
              | some newDl =>
                  let task2 := match newDl with
                    | some d => { task1 with deadline := some d }
                    | none => task1
                  let task3 :=
                    if strTruthy task_description then
                      { task2 with description := task_description.getD "" }
                    else task2
                  let update_details :=
                    (if strTruthy task_status then
                      ["status to '" ++ task_status.getD "" ++ "'"] else [])
                    ++ (if strTruthy task_description then
                      ["description to '" ++ task_description.getD "" ++ "'"] else [])
                    ++ (if strTruthy deadline then
                      ["deadline to '" ++ deadline.getD "" ++ "'"] else [])
                  let preview :=
                    if task3.description.length > 75 then
                      task3.description.take 75 ++ "..."
                    else task3.description
                  let msg := "Okay, I've updated the task '" ++ preview ++ "' ("
                      ++ String.intercalate ", " update_details ++ ")."
                  (.ok msg (some task3),
                   { store with
                     tasks := store.tasks.map
                       (fun t => if t.id == tid && t.user_id == uid then task3 else t) })
  else if action == "list" then
    let q := store.tasks.filter (fun t => t.user_id == uid)
    let q :=
      if strTruthy task_status && validStatuses.contains (task_status.getD "") then
        q.filter (fun t => t.status == task_status.getD "")
      else q
    (.okList (List.insertionSort taskListLE q), store)
  else
    (.err ("Unknown task action: " ++ action), store)

/-- One row of the task table editor submission (`tasks_list` entries in
`update_tasks_and_persist`); a row added in the UI has no id yet. -/
structure TaskEdit where
  id : Option Nat
  description : String
  status : String
  deadline : Option PyDateTime
deriving DecidableEq, Repr

/-- One loop iteration of `update_tasks_and_persist`: look the id up among
the caller's remaining tasks, assign description, status (validated —
`none` models the `ValueError` that aborts the whole call before commit),
deadline, and maintain `completed_at`. -/
def applyEdit (uid nowTs : Nat) (tasks : List Task) (e : TaskEdit) :
    Option (List Task) :=
  match e.id with
  | none => some tasks
  | some tid =>
      if tasks.any (fun t => t.id == tid && t.user_id == uid) then
        if validStatuses.contains e.status then
          some (tasks.map (fun t =>
            if t.id == tid && t.user_id == uid then
              { t with
                description := e.description,
                status := e.status,
                deadline := e.deadline,
                completed_at :=
                  if e.status == "completed" then
                    (if t.completed_at = none then some nowTs else t.completed_at)
                  else none }
            else t))
        else none
      else some tasks

/-- `update_tasks_and_persist(tasks_list, user)` from `utils.py`: delete the
caller's tasks whose ids were not submitted, then apply every submitted row
in order; an invalid status makes the validator raise before commit, so the
whole call leaves the store unchanged. -/
def update_tasks_and_persist (tasks_list : List TaskEdit) (uid : Nat)
    (nowTs : Nat) (store : TaskStore) : MTResult × TaskStore :=
  let submitted := tasks_list.filterMap (fun e => e.id)
  let kept := store.tasks.filter
    (fun t => !(t.user_id == uid) || submitted.contains t.id)
  match tasks_list.foldl (fun acc e => acc.bind (fun ts => applyEdit uid nowTs ts e))
      (some kept) with
  | some finalTasks =>
      (.ok "Tasks updated successfully." none, { store with tasks := finalTasks })
  | none => (.err "Invalid status", store)

/-- C8: CORRECTED (counterexample).  The claim says a bare YYYY-MM-DD date
is combined with the current time-of-day in UTC.  In the code,
`datetime.fromisoformat` already accepts a bare date and returns a NAIVE
MIDNIGHT datetime, so the `strptime` fallback that would combine the
current time never runs for a strict bare date: normalizing "2025-03-01"
while the clock reads 12:34:56 UTC yields 00:00:00 naive, not 12:34:56
UTC. -/
theorem C8_deadline_counterexample :
    parseDeadline "2025-03-01" ⟨2025, 6, 15, 12, 34, 56, 0, some 0⟩
      = some ⟨2025, 3, 1, 0, 0, 0, 0, none⟩
    ∧ (0 : Nat) ≠ (12 : Nat)
    ∧ (some ⟨2025, 3, 1, 0, 0, 0, 0, none⟩ : Option PyDateTime)
      ≠ some ⟨2025, 3, 1, 12, 34, 56, 0, some 0⟩ := by
  refine ⟨rfl, by decide, by decide⟩

/-- C8 (amended): an absolute ISO timestamp is returned as parsed (a
trailing Z first normalized to +00:00); a STRICT bare date YYYY-MM-DD is
accepted by the ISO parser itself and yields naive midnight of that date,
ignoring the clock; only a date that ISO parsing rejects but
strptime("%Y-%m-%d") accepts (e.g. non-zero-padded "2025-3-1") is combined
with the current UTC time-of-day; unparseable input makes the add/update
operation fail with the invalid-deadline error and leaves the store
unchanged — never silently dropped or defaulted. -/
theorem C8_deadline_normalization (now : PyDateTime) (uid nowTs : Nat)
    (store : Tracker.TaskStore) :
    parseDeadline "2025-03-01" now = some ⟨2025, 3, 1, 0, 0, 0, 0, none⟩
    ∧ parseDeadline "2025-3-1" now
        = some ⟨2025, 3, 1, now.hour, now.minute, now.second, now.microsecond, some 0⟩
    ∧ parseDeadline "2026-01-02T03:04:05Z" now = some ⟨2026, 1, 2, 3, 4, 5, 0, some 0⟩
    ∧ parseDeadline "2026-01-02T03:04:05+00:00" now
        = some ⟨2026, 1, 2, 3, 4, 5, 0, some 0⟩
    ∧ parseDeadline "not-a-date" now = none
    ∧ Tracker.manage_tasks_and_persist_impl "add" uid (some "Buy milk") none none
        (some "not-a-date") now nowTs store
        = (.err "Invalid deadline format. Please use ISO format or YYYY-MM-DD.", store)
    ∧ Tracker.manage_tasks_and_persist_impl "update" 7 none (some 1) none
        (some "not-a-date") now nowTs
        (Tracker.TaskStore.mk [⟨1, 7, "Write the report", "open", 10, none, none⟩] 2)
        = (.err "Invalid deadline format. Please use ISO format or YYYY-MM-DD.",
           Tracker.TaskStore.mk [⟨1, 7, "Write the report", "open", 10, none, none⟩] 2) := by
  refine ⟨rfl, rfl, rfl, rfl, rfl, rfl, rfl⟩

/-! ### Claim C6: the completed_at invariant -/

/-- The task-status invariant of the data model: a task is `completed`
exactly when `completed_at` is set. -/
def taskInv (t : Task) : Prop := (t.status = "completed") ↔ t.completed_at ≠ none

/-- Ids are pairwise distinct, as the primary key guarantees for the rows of
the tasks table. -/
def uniqueIds (l : List Task) : Prop := l.Pairwise (fun a b => a.id ≠ b.id)

theorem mem_update_map {l : List Task} {t t3 : Task} {p : Task → Bool}
    (ht : t ∈ l.map (fun a => if p a then t3 else a)) : t = t3 ∨ t ∈ l := by
  rcases List.mem_map.mp ht with ⟨a, ha, hfa⟩
  by_cases hpa : p a = true
  · left; rw [← hfa, if_pos hpa]
  · right; rw [← hfa, if_neg hpa]; exact ha

theorem eq_of_mem_uniqueIds {l : List Task} (hu : uniqueIds l) {a b : Task}
    (ha : a ∈ l) (hb : b ∈ l) (hid : a.id = b.id) : a = b := by
  induction l with
  | nil => cases ha
  | cons x xs ih =>
    have hx := List.pairwise_cons.mp hu
    rcases List.mem_cons.mp ha with rfl | ha' <;> rcases List.mem_cons.mp hb with rfl | hb'
    · rfl
    · exact absurd hid (hx.1 b hb')
    · exact absurd hid.symm (hx.1 a ha')
    · exact ih hx.2 ha' hb'

theorem foldl_bind_none (uid nowTs : Nat) (edits : List TaskEdit) :
    edits.foldl (fun acc e => acc.bind (fun ts => applyEdit uid nowTs ts e))
      none = none := by
  induction edits with
  | nil => simp
  | cons e rest ih => simpa using ih

theorem applyEdit_inv (uid nowTs : Nat) (ts : List Task) (e : TaskEdit)
    (res : List Task) (h : ∀ t ∈ ts, taskInv t)
    (he : applyEdit uid nowTs ts e = some res) : ∀ t ∈ res, taskInv t := by
  unfold applyEdit at he
  cases hid : e.id with
  | none => rw [hid] at he; cases he; exact h
  | some tid =>
    rw [hid] at he
    dsimp only at he
    by_cases h1 : ts.any (fun t => t.id == tid && t.user_id == uid) = true
    · by_cases h2 : validStatuses.contains e.status = true
      · rw [if_pos h1, if_pos h2] at he
        cases he
        intro t ht
        rcases List.mem_map.mp ht with ⟨a, ha, hfa⟩
        by_cases hpa : (a.id == tid && a.user_id == uid) = true
        · rw [if_pos hpa] at hfa
          subst hfa
          by_cases hc : (e.status == "completed") = true
          · have hcs : e.status = "completed" := by simpa using hc
            cases hca : a.completed_at <;> simp [taskInv, hc, hcs, hca]
          · have hcs : ¬(e.status = "completed") := by simpa using hc
            simp [taskInv, hc, hcs]
        · rw [if_neg hpa] at hfa
          subst hfa
          exact h a ha
      · rw [if_pos h1, if_neg h2] at he; cases he
    · rw [if_neg h1] at he; cases he; exact h

theorem foldEdits_inv (uid nowTs : Nat) :
    ∀ (edits : List TaskEdit) (ts res : List Task),
    (∀ t ∈ ts, taskInv t) →
    edits.foldl (fun acc e => acc.bind (fun l => applyEdit uid nowTs l e))
      (some ts) = some res →
    ∀ t ∈ res, taskInv t := by
  intro edits
  induction edits with
  | nil =>
    intro ts res h hf
    simp at hf
    subst hf
    exact h
  | cons e rest ih =>
    intro ts res h hf
    rw [List.foldl_cons] at hf
    cases hae : applyEdit uid nowTs ts e with
    | none =>
      rw [show (some ts).bind (fun l => applyEdit uid nowTs l e) = none by
        simp [hae]] at hf
      rw [foldl_bind_none] at hf
      cases hf
    | some ts' =>
      rw [show (some ts).bind (fun l => applyEdit uid nowTs l e) = some ts' by
        simp [hae]] at hf
      exact ih ts' res (applyEdit_inv uid nowTs ts e ts' h hae) hf

theorem manage_tasks_inv (action : String) (uid : Nat) (td : Option String)
    (tid : Option Nat) (ts dl : Option String) (now : PyDateTime) (nowTs : Nat)
    (store : TaskStore) (h : ∀ t ∈ store.tasks, taskInv t) :
    ∀ t ∈ (manage_tasks_and_persist_impl action uid td tid ts dl now nowTs
      store).2.tasks, taskInv t := by
  unfold manage_tasks_and_persist_impl
  dsimp only
  split
  · -- action == "add"
    split
    · exact h
    · split
      · exact h
      · rename_i task_deadline heq
        intro t ht
        rcases List.mem_append.mp ht with h1 | h2
        · exact h t h1
        · have ht2 : t = ⟨store.nextId, uid, td.getD "", "open", nowTs,
              task_deadline, none⟩ := by simpa using h2
          subst ht2
          simp [taskInv]
  · split
    · -- action == "update"
      cases tid with
      | none => exact h
      | some tid0 =>
        dsimp only
        cases hfind : store.tasks.find? (fun t => t.id == tid0 && t.user_id == uid) with
        | none => exact h
        | some task =>
          dsimp only
          split
          · exact h
          · split
            · exact h
            · rename_i newDl heqDl
              intro t ht
              rcases List.mem_map.mp ht with ⟨a, ha, hfa⟩
              by_cases hpa : (a.id == tid0 && a.user_id == uid) = true
              · rw [if_pos hpa] at hfa
                subst hfa
                have hbase := h task (List.mem_of_find?_eq_some hfind)
                simp only [taskInv] at hbase
                by_cases htd : strTruthy td = true <;>
                  by_cases hts : strTruthy ts = true <;>
                  by_cases hcmp : ts.getD "" = "completed" <;>
                  cases newDl <;>
                  simp [taskInv, htd, hts, hcmp, beq_iff_eq] <;>
                  simpa [taskInv] using hbase
              · rw [if_neg hpa] at hfa
                subst hfa
                exact h a ha
    · split
      · exact h
      · exact h

theorem update_tasks_inv (edits : List TaskEdit) (uid nowTs : Nat)
    (store : TaskStore) (h : ∀ t ∈ store.tasks, taskInv t) :
    ∀ t ∈ (update_tasks_and_persist edits uid nowTs store).2.tasks, taskInv t := by
  unfold update_tasks_and_persist
  dsimp only
  split
  · rename_i finalTasks hfold
    exact foldEdits_inv uid nowTs edits _ finalTasks
      (fun t' ht' => h t' (List.mem_of_mem_filter ht')) hfold
  · exact h

theorem manage_tasks_update_frame (uid : Nat) (td : Option String)
    (tid : Option Nat) (ts dl : Option String) (now : PyDateTime) (nowTs : Nat)
    (store : TaskStore) (hu : uniqueIds store.tasks)
    (hts : strTruthy ts = false) :
    ((manage_tasks_and_persist_impl "update" uid td tid ts dl now nowTs
        store).2).tasks.map (fun t => t.completed_at)
      = store.tasks.map (fun t => t.completed_at) := by
  unfold manage_tasks_and_persist_impl
  dsimp only
  rw [if_neg (by decide : ¬ (("update" == "add") = true))]
  rw [if_pos (by decide : (("update" == "update") = true))]
  cases tid with
  | none => rfl
  | some tid0 =>
    dsimp only
    cases hfind : store.tasks.find? (fun t => t.id == tid0 && t.user_id == uid) with
    | none => rfl
    | some task =>
      dsimp only
      split
      · rename_i hcond
        rw [hts] at hcond
      · split
        · rfl
        · rename_i newDl heqDl
          dsimp only
          rw [List.map_map]
          apply List.map_congr_left
          intro a ha
          by_cases hpa : (a.id == tid0 && a.user_id == uid) = true
          · have hfp := List.find?_some hfind
            have hmem := List.mem_of_find?_eq_some hfind
            have hids : a.id = task.id := by
              simp only [Bool.and_eq_true, beq_iff_eq] at hpa hfp
              rw [hpa.1, hfp.1]
            have haeq : a = task := eq_of_mem_uniqueIds hu ha hmem hids
            subst haeq
            by_cases htd : strTruthy td = true <;> cases newDl <;>
              simp [Function.comp, hpa, hts, htd]
          · simp [Function.comp, hpa]

/-- C6: CONFIRMED.  (i) Every `manage_tasks_and_persist_impl` call (any
action, in particular add and update) preserves the store-wide invariant
that a task's status is `completed` exactly when `completed_at` is set;
(ii) the bulk task replace `update_tasks_and_persist` preserves it as well;
(iii) an update call that does not supply a status (the only mutation path
besides a status transition: description and deadline edits) leaves every
task's `completed_at` untouched. -/
theorem C6_completed_at_invariant :
    (∀ (action : String) (uid : Nat) (td : Option String) (tid : Option Nat)
        (ts dl : Option String) (now : PyDateTime) (nowTs : Nat)
        (store : TaskStore),
      (∀ t ∈ store.tasks, taskInv t) →
      ∀ t ∈ (manage_tasks_and_persist_impl action uid td tid ts dl now nowTs
          store).2.tasks, taskInv t)
    ∧ (∀ (edits : List TaskEdit) (uid nowTs : Nat) (store : TaskStore),
      (∀ t ∈ store.tasks, taskInv t) →
      ∀ t ∈ (update_tasks_and_persist edits uid nowTs store).2.tasks, taskInv t)
    ∧ (∀ (uid : Nat) (td : Option String) (tid : Option Nat)
        (ts dl : Option String) (now : PyDateTime) (nowTs : Nat)
        (store : TaskStore),
      uniqueIds store.tasks → strTruthy ts = false →
      ((manage_tasks_and_persist_impl "update" uid td tid ts dl now nowTs
          store).2).tasks.map (fun t => t.completed_at)
        = store.tasks.map (fun t => t.completed_at)) :=
  ⟨fun action uid td tid ts dl now nowTs store h =>
      manage_tasks_inv action uid td tid ts dl now nowTs store h,
   fun edits uid nowTs store h => update_tasks_inv edits uid nowTs store h,
   fun uid td tid ts dl now nowTs store hu hts =>
      manage_tasks_update_frame uid td tid ts dl now nowTs store hu hts⟩

/-- Witness for C6_completed_at_invariant: completing task 1 of user 7 keeps
the invariant; an update that only rewrites the description leaves
completed_at untouched. -/
theorem C6_completed_at_invariant_witness :
    ((∀ t ∈ (TaskStore.mk [⟨1, 7, "Write the report", "open", 10, none, none⟩]
        2).tasks, taskInv t)
      ∧ ∀ t ∈ (manage_tasks_and_persist_impl "update" 7 none (some 1)
          (some "completed") none ⟨2025, 6, 15, 12, 0, 0, 0, some 0⟩ 11
          (TaskStore.mk [⟨1, 7, "Write the report", "open", 10, none, none⟩]
            2)).2.tasks, taskInv t)
    ∧ (uniqueIds (TaskStore.mk
          [⟨1, 7, "Write the report", "open", 10, none, none⟩] 2).tasks
      ∧ strTruthy (none : Option String) = false
      ∧ ((manage_tasks_and_persist_impl "update" 7 (some "Polish the report")
          (some 1) none none ⟨2025, 6, 15, 12, 0, 0, 0, some 0⟩ 11
          (TaskStore.mk [⟨1, 7, "Write the report", "open", 10, none, none⟩]
            2)).2).tasks.map (fun t => t.completed_at)
        = (TaskStore.mk [⟨1, 7, "Write the report", "open", 10, none, none⟩]
            2).tasks.map (fun t => t.completed_at)) := by
  have hpre : ∀ t ∈ (TaskStore.mk
      [⟨1, 7, "Write the report", "open", 10, none, none⟩] 2).tasks, taskInv t := by
    intro t ht
    simp only [List.mem_singleton] at ht
    subst ht
    simp [taskInv]
  have huniq : uniqueIds (TaskStore.mk
      [⟨1, 7, "Write the report", "open", 10, none, none⟩] 2).tasks := by
    simp [uniqueIds]
  exact ⟨⟨hpre, C6_completed_at_invariant.1 "update" 7 none (some 1)
      (some "completed") none ⟨2025, 6, 15, 12, 0, 0, 0, some 0⟩ 11 _ hpre⟩,
    huniq, rfl, C6_completed_at_invariant.2.2 7 (some "Polish the report")
      (some 1) none none ⟨2025, 6, 15, 12, 0, 0, 0, some 0⟩ 11 _ huniq rfl⟩

theorem filter_and_comm (l : List Task) (p q : Task → Bool) :
    l.filter (fun a => p a && q a) = l.filter (fun a => q a && p a) :=
  List.filter_congr (fun a _ => Bool.and_comm (p a) (q a))

/-- The status filter the claim describes: restrict to the given status when
one is supplied. -/
def listStatusFilter (ts : Option String) (t : Task) : Bool :=
  match ts with
  | some s => t.status == s
  | none => true

/-- C9: CONFIRMED.  A `list` call leaves the store unchanged and returns
exactly the caller's tasks (restricted to the given status when a valid
status filter is supplied), ordered in_progress first, then open, then
completed (`statusRank`), and inside each status group by most recent
creation first. -/
theorem C9_manage_tasks_list (uid : Nat) (td : Option String)
    (tid : Option Nat) (ts : Option String) (dl : Option String)
    (now : PyDateTime) (nowTs : Nat) (store : TaskStore)
    (hts : ∀ s, ts = some s → s ∈ validStatuses) :
    ∃ l, manage_tasks_and_persist_impl "list" uid td tid ts dl now nowTs store
        = (.okList l, store)
    ∧ l.Perm (store.tasks.filter (fun t =>
        t.user_id == uid && listStatusFilter ts t))
    ∧ l.Pairwise (fun a b => statusRank a.status ≤ statusRank b.status
        ∧ (statusRank a.status = statusRank b.status → b.created_at ≤ a.created_at)) := by
  refine ⟨_, rfl, ?_, ?_⟩
  · refine (List.perm_insertionSort taskListLE _).trans ?_
    cases ts with
    | none => simp [listStatusFilter, strTruthy]
    | some s =>
      have hs := hts s rfl
      simp only [validStatuses, List.mem_cons, List.not_mem_nil, or_false] at hs
      rcases hs with rfl | rfl | rfl <;>
        · rw [show (strTruthy (some _) && validStatuses.contains
              ((some _).getD "")) = true by decide]
          rw [if_pos rfl]
          rw [List.filter_filter, filter_and_comm]
          exact List.Perm.refl _
  · have hsorted := List.sorted_insertionSort taskListLE
      (if strTruthy ts && validStatuses.contains (ts.getD "") then
        (store.tasks.filter (fun t => t.user_id == uid)).filter
          (fun t => t.status == ts.getD "")
      else store.tasks.filter (fun t => t.user_id == uid))
    refine List.Pairwise.imp ?_ hsorted
    intro a b hab
    rcases hab with hlt | ⟨heq, hle⟩
    · exact ⟨le_of_lt hlt, fun h => absurd h (Nat.ne_of_lt hlt)⟩
    · exact ⟨le_of_eq heq, fun _ => hle⟩

/-- Witness for C9_manage_tasks_list: listing the open tasks of user 7 in a
concrete store. -/
theorem C9_manage_tasks_list_witness :
    (∀ s, (some "open" : Option String) = some s → s ∈ validStatuses)
    ∧ ∃ l, manage_tasks_and_persist_impl "list" 7 none none (some "open") none
        ⟨2025, 6, 15, 12, 0, 0, 0, some 0⟩ 0
        (TaskStore.mk [⟨1, 7, "A", "open", 5, none, none⟩,
          ⟨2, 7, "B", "completed", 6, none, some 6⟩] 3)
        = (.okList l, TaskStore.mk [⟨1, 7, "A", "open", 5, none, none⟩,
            ⟨2, 7, "B", "completed", 6, none, some 6⟩] 3)
      ∧ l.Perm ((TaskStore.mk [⟨1, 7, "A", "open", 5, none, none⟩,
          ⟨2, 7, "B", "completed", 6, none, some 6⟩] 3).tasks.filter (fun t =>
            t.user_id == 7 && listStatusFilter (some "open") t))
      ∧ l.Pairwise (fun a b => statusRank a.status ≤ statusRank b.status
          ∧ (statusRank a.status = statusRank b.status →
              b.created_at ≤ a.created_at)) := by
  have hts : ∀ s, (some "open" : Option String) = some s → s ∈ validStatuses := by
    intro s hs
    cases hs
    simp [validStatuses]
  exact ⟨hts, C9_manage_tasks_list 7 none none (some "open") none
    ⟨2025, 6, 15, 12, 0, 0, 0, some 0⟩ 0
    (TaskStore.mk [⟨1, 7, "A", "open", 5, none, none⟩,
      ⟨2, 7, "B", "completed", 6, none, some 6⟩] 3) hts⟩

/-! ### Log entries

`add_log_entry_and_persist_impl` from `utils.py`.  The `content` column is a
nullable Text column, so the content is an optional string; the code never
validates `text_input` beyond using it. -/

structure LogEntry where
  id : Nat
  user_id : Nat
  content : Option String
  category : String
  created_at : Nat
deriving DecidableEq, Repr

structure LogStore where
  entries : List LogEntry
  nextId : Nat
deriving DecidableEq, Repr

inductive LogResult where
  | err (message : String)
  | ok (message : String) (entry : LogEntry)
deriving DecidableEq, Repr

/-- `add_log_entry_and_persist_impl(text_input, user, category_suggestion)`:
no validation of `text_input`; only a missing user is rejected.  The row is
committed before the preview is built; when `text_input` is `None`,
`len(text_input)` raises `TypeError` AFTER the commit, which the code does
not catch — the row stays persisted. -/
def add_log_entry_and_persist_impl (text_input : Option String)
    (user : Option Nat) (category_suggestion : Option String) (nowTs : Nat)
    (store : LogStore) : LogResult × LogStore :=
  match user with
  | none => (.err "User missing.", store)
  | some uid =>
      let log_entry : LogEntry :=
        ⟨store.nextId, uid, text_input,
         if strTruthy category_suggestion then category_suggestion.getD ""
         else "Note", nowTs⟩
      let store' : LogStore :=
        ⟨store.entries ++ [log_entry], store.nextId + 1⟩
      match text_input with
      | none =>
          (.err "TypeError: object of type NoneType has no len()", store')
      | some text =>
          let content_preview :=
            if text.length > 100 then text.take 100 ++ "..." else text
          let final_category :=
            if strTruthy category_suggestion then category_suggestion.getD ""
            else "Note"
          (.ok ("Log added successfully!  \n- **Content:** '" ++ content_preview
              ++ "'  \n- **Category:** " ++ final_category) log_entry, store')

/-- C3: CORRECTED (counterexample).  The claim says an empty textInput fails
with InvalidArgument and no LogEntry is created.  The code has no emptiness
check: the call succeeds and persists a LogEntry with empty content. -/
theorem C3_add_log_entry_empty_counterexample :
    add_log_entry_and_persist_impl (some "") (some 7) none 5 (LogStore.mk [] 1)
      = (.ok "Log added successfully!  \n- **Content:** ''  \n- **Category:** Note"
          ⟨1, 7, some "", "Note", 5⟩,
         LogStore.mk [⟨1, 7, some "", "Note", 5⟩] 2)
    ∧ (LogStore.mk [⟨1, 7, some "", "Note", 5⟩] 2).entries.length
        = (LogStore.mk ([] : List LogEntry) 1).entries.length + 1 := by
  exact ⟨rfl, rfl⟩

/-- C3 (amended): a call with empty textInput is ACCEPTED: it returns a
success result and appends a LogEntry whose content is the empty string;
the only rejected call is one with no user. -/
theorem C3_add_log_entry_empty_accepted (uid nowTs : Nat)
    (cat : Option String) (store : LogStore) :
    (∃ msg entry,
      add_log_entry_and_persist_impl (some "") (some uid) cat nowTs store
        = (.ok msg entry, LogStore.mk (store.entries ++ [entry]) (store.nextId + 1))
      ∧ entry.content = some "" ∧ entry.user_id = uid)
    ∧ (∀ store' : LogStore,
      add_log_entry_and_persist_impl (some "") none cat nowTs store'
        = (.err "User missing.", store')) :=
  ⟨⟨_, _, rfl, rfl, rfl⟩, fun _ => rfl⟩

/-- C10: CONFIRMED.  When categorySuggestion is absent or empty, the
persisted LogEntry's category is the string "Note". -/
theorem C10_default_category (text : String) (uid nowTs : Nat)
    (store : LogStore) (cat : Option String)
    (hcat : cat = none ∨ cat = some "") :
    ∃ msg entry,
      add_log_entry_and_persist_impl (some text) (some uid) cat nowTs store
        = (.ok msg entry, LogStore.mk (store.entries ++ [entry]) (store.nextId + 1))
      ∧ entry.category = "Note" := by
  rcases hcat with rfl | rfl <;> exact ⟨_, _, rfl, rfl⟩

/-- Witness for C10_default_category. -/
theorem C10_default_category_witness :
    ((none : Option String) = none ∨ (none : Option String) = some "")
    ∧ ∃ msg entry,
      add_log_entry_and_persist_impl (some "Went for a run") (some 7) none 5
          (LogStore.mk [] 1)
        = (.ok msg entry, LogStore.mk ([] ++ [entry]) (1 + 1))
      ∧ entry.category = "Note" :=
  ⟨Or.inl rfl,
   C10_default_category "Went for a run" 7 5 (LogStore.mk [] 1) none (Or.inl rfl)⟩

/-! ### The newsletter rate limiter (`newsletter.py`)

`send_newsletter_for_user` counts the user's NewsletterLog rows within the
current calendar day (`dt.date.today()`, the server's local day, with the
range `[time.min, time.max]`), and SKIPS when the count is at least the
HARDCODED limit 1.  Otherwise it checks SMTP_PASSWORD, generates the digest
(one model call), persists the NewsletterLog row inside
`_generate_html_content` BEFORE any email is sent, and then attempts
delivery only when the complete credential set is present.  `created_day`
abstracts the calendar day of `created_at`; the markdown post-processing of
the model output is content-preserving bookkeeping the claims never
inspect, so the generated body is the opaque `content` argument. -/

structure NewsletterLogEntry where
  user_id : Nat
  content : String
  created_day : Nat
deriving DecidableEq, Repr

structure SmtpCreds where
  host_set : Bool
  port_set : Bool
  user_set : Bool
  password_set : Bool
  sender_set : Bool
deriving DecidableEq, Repr

inductive NLStatus where
  | success
  | skipped
  | error
deriving DecidableEq, Repr

/-- The observable outcome of one `send_newsletter_for_user` call: the
returned status dict, the NewsletterLog table afterwards, whether the model
was invoked, and whether an SMTP delivery was attempted. -/
structure NLOutcome where
  status : NLStatus
  message : String
  log : List NewsletterLogEntry
  modelInvoked : Bool
  emailAttempted : Bool
deriving DecidableEq, Repr

def send_newsletter_for_user (user_id : Nat) (user_email : String)
    (today : Nat) (creds : SmtpCreds) (content : String) (emailOk : Bool)
    (log : List NewsletterLogEntry) : NLOutcome :=
  let todays_log_count :=
    (log.filter (fun e => e.user_id == user_id && e.created_day == today)).length
  if todays_log_count ≥ 1 then
    ⟨.skipped, "Newsletter limit reached for today.", log, false, false⟩
  else if !creds.password_set then
    ⟨.error, "SMTP_PASSWORD environment variable not set.", log, false, false⟩
  else
    let log' := log ++ [⟨user_id, content, today⟩]
    if !(creds.host_set && creds.port_set && creds.user_set
        && creds.password_set && creds.sender_set) then
      ⟨.error, "Failed to send newsletter to " ++ user_email ++ ".", log', true, false⟩
    else if emailOk then
      ⟨.success, "Newsletter sent to " ++ user_email ++ ".", log', true, true⟩
    else
      ⟨.error, "Failed to send newsletter to " ++ user_email ++ ".", log', true, true⟩

/-- C1: CORRECTED (counterexample).  The claim presumes a daily cap
configured to 3, under which the 3rd request of the day succeeds and is
persisted.  The limit in the code is the HARDCODED constant 1
(`if todays_log_count >= 1`): with 2 digests already logged today the next
(3rd) request is skipped with no new log row, no model call and no email
attempt — and already the 2nd request of a day is skipped. -/
theorem C1_rate_limit_counterexample :
    send_newsletter_for_user 7 "user@example.com" 100
        ⟨true, true, true, true, true⟩ "body" true
        [⟨7, "a", 100⟩, ⟨7, "b", 100⟩]
      = ⟨.skipped, "Newsletter limit reached for today.",
         [⟨7, "a", 100⟩, ⟨7, "b", 100⟩], false, false⟩
    ∧ send_newsletter_for_user 7 "user@example.com" 100
        ⟨true, true, true, true, true⟩ "body" true [⟨7, "a", 100⟩]
      = ⟨.skipped, "Newsletter limit reached for today.", [⟨7, "a", 100⟩],
         false, false⟩ :=
  ⟨rfl, rfl⟩

/-- C1 (amended): the daily limit is the hardcoded constant 1, per user and
per server-local calendar day.  Any request finding at least one digest
already logged that day returns status=skipped with the log unchanged, no
model invocation and no email attempt; a request finding none either fails
fast on a missing SMTP password (still no model call, no log row, no email
attempt) or invokes the model once and persists exactly one new
NewsletterLog row (before and regardless of email delivery). -/
theorem C1_rate_limiter (uid : Nat) (email content : String) (today : Nat)
    (creds : SmtpCreds) (emailOk : Bool) (log : List NewsletterLogEntry) :
    ((log.filter (fun e => e.user_id == uid && e.created_day == today)).length ≥ 1 →
      send_newsletter_for_user uid email today creds content emailOk log
        = ⟨.skipped, "Newsletter limit reached for today.", log, false, false⟩)
    ∧ ((log.filter (fun e => e.user_id == uid && e.created_day == today)).length = 0 →
        creds.password_set = false →
        send_newsletter_for_user uid email today creds content emailOk log
          = ⟨.error, "SMTP_PASSWORD environment variable not set.", log,
             false, false⟩)
    ∧ ((log.filter (fun e => e.user_id == uid && e.created_day == today)).length = 0 →
        creds.password_set = true →
        (send_newsletter_for_user uid email today creds content emailOk log).log
            = log ++ [⟨uid, content, today⟩]
        ∧ (send_newsletter_for_user uid email today creds content emailOk
            log).modelInvoked = true) := by
  refine ⟨fun h => ?_, fun h0 hpw => ?_, fun h0 hpw => ?_⟩
  · unfold send_newsletter_for_user
    rw [if_pos h]
  · unfold send_newsletter_for_user
    rw [if_neg (by omega), if_pos (by simp [hpw])]
  · unfold send_newsletter_for_user
    rw [if_neg (by omega), if_neg (by simp [hpw])]
    refine ⟨?_, ?_⟩ <;> (dsimp only; repeat' split) <;> rfl

/-- Witness for C1_rate_limiter: with one digest already logged today the
next request is skipped; with none logged and a password set, the model
runs and the digest is persisted. -/
theorem C1_rate_limiter_witness :
    (([⟨7, "a", 100⟩] : List NewsletterLogEntry).filter
        (fun e => e.user_id == 7 && e.created_day == 100)).length ≥ 1
    ∧ send_newsletter_for_user 7 "user@example.com" 100
        ⟨true, true, true, true, true⟩ "body" true [⟨7, "a", 100⟩]
      = ⟨.skipped, "Newsletter limit reached for today.", [⟨7, "a", 100⟩],
         false, false⟩
    ∧ (([] : List NewsletterLogEntry).filter
        (fun e => e.user_id == 7 && e.created_day == 100)).length = 0
    ∧ (⟨true, true, true, true, true⟩ : SmtpCreds).password_set = true
    ∧ (send_newsletter_for_user 7 "user@example.com" 100
        ⟨true, true, true, true, true⟩ "body" true []).log
          = [] ++ [⟨7, "body", 100⟩]
    ∧ (send_newsletter_for_user 7 "user@example.com" 100
        ⟨true, true, true, true, true⟩ "body" true []).modelInvoked = true := by
  have h1 : (([⟨7, "a", 100⟩] : List NewsletterLogEntry).filter
      (fun e => e.user_id == 7 && e.created_day == 100)).length ≥ 1 := by decide
  have h0 : (([] : List NewsletterLogEntry).filter
      (fun e => e.user_id == 7 && e.created_day == 100)).length = 0 := rfl
  have hmain := C1_rate_limiter 7 "user@example.com" "body" 100
    ⟨true, true, true, true, true⟩ true []
  exact ⟨h1, (C1_rate_limiter 7 "user@example.com" "body" 100
      ⟨true, true, true, true, true⟩ true [⟨7, "a", 100⟩]).1 h1,
    h0, rfl, (hmain.2.2 h0 rfl).1, (hmain.2.2 h0 rfl).2⟩

/-! ### The conversation orchestrator (`get_chat_response` in `utils.py`)

The model invocation and the speech-to-text call are external boundaries:
their outcome for this turn is an explicit argument (`ModelOutcome`, and
`audio` as "no audio" / "transcription failed" / "transcribed text").  The
system-prompt string feeds only the model call, so it does not appear in
the observable behaviour.  `json.loads` is the external `jsonParse`
argument: `none` models a `JSONDecodeError`.  The conversation history is
threaded explicitly instead of being mutated in place. -/

/-- The `fc.args` dict: each known key may be absent. -/
structure FCArgs where
  text_input : Option String
  category_suggestion : Option String
  background_update_json : Option String
  action : Option String
  task_description : Option String
  task_id : Option Nat
  task_status : Option String
  deadline : Option String

/-- One part of the model's candidate content: optional text, optional
function call (name, args). -/
structure RespPart where
  text : Option String
  function_call : Option (String × FCArgs)

/-- What the `generate_content` call produced for this turn. -/
inductive ModelOutcome where
  | failure (msg : String)
  | noCandidates
  | emptyContent
  | response (parts : List RespPart)

inductive BGResult where
  | err (message : String)
  | ok (message : String) (updated : List (String × Json))

/-- `update_background_info_and_persist_impl(background_update_json, user,
replace)`: parse the JSON string and merge (or replace) the latest
BackgroundInfo content.  A `None` argument makes `json.loads` raise
`TypeError`, caught by the blanket `except Exception`; a non-object JSON
document makes `deep_update` raise `AttributeError`, caught the same way
(and the UI only ever submits objects in replace mode). -/
def update_background_info_and_persist_impl (jsonParse : String → Option Json)
    (background_update_json : Option String) (user : Option Nat)
    (replace : Bool) (store : List (String × Json)) :
    BGResult × List (String × Json) :=
  match user with
  | none => (.err "User missing.", store)
  | some _ =>
      match background_update_json with
      | none => (.err "An unexpected error occurred.", store)
      | some s =>
          match jsonParse s with
          | none => (.err "Invalid JSON format for background update.", store)
          | some (.obj update_data) =>
              let updated := if replace then update_data
                else deep_update store update_data
              (.ok "Background information updated." updated, updated)
          | some _ => (.err "An unexpected error occurred.", store)

/-- The result dict recorded as a `function_response` history part. -/
inductive ToolResult where
  | logRes (r : LogResult)
  | bgRes (r : BGResult)
  | taskRes (r : MTResult)
  | unknownFn (message : String)

inductive HistPart where
  | text (s : String)
  | fcall (name : String) (args : FCArgs)
  | fresponse (name : String) (response : ToolResult)

inductive ChatContent where
  | text (s : String)
  | parts (ps : List HistPart)

/-- One entry of `conversation_history`. -/
structure ChatTurn where
  role : String
  content : ChatContent

/-- The per-user persisted state the tool calls act on. -/
structure ChatState where
  user : Option Nat
  bgStore : List (String × Json)
  logStore : LogStore
  taskStore : TaskStore

structure ChatResponse where
  text_response : String
  ui_message : Option String

/-- Python `str.strip()` on the composed text (structural, so that concrete
turns evaluate). -/
def isPySpace (c : Char) : Bool :=
  c = ' ' || c = '\t' || c = '\n' || c = '\r' || c = '\x0b' || c = '\x0c'

def pyStrip (s : String) : String :=
  String.mk (((s.data.dropWhile isPySpace).reverse.dropWhile isPySpace).reverse)

/-- The `if function_name == ... elif ... else` dispatch for one requested
call (lines 788-849 of `utils.py`): run the tool against the store, record
the result dict, and produce the per-call UI message (success message,
task-list rendering, or the unknown-function error segment).  A chat turn
only runs with a logged-in user, so the `manage_tasks` branch reads the
user id with a default that is never exercised (a missing user would raise
`AttributeError` in the source). -/
def dispatch_tool_call (jsonParse : String → Option Json) (now : PyDateTime)
    (nowTs : Nat) (st : ChatState) (name : String) (args : FCArgs) :
    ChatState × ToolResult × Option String :=
  if name == "add_log_entry" then
    let r := add_log_entry_and_persist_impl args.text_input st.user
      args.category_suggestion nowTs st.logStore
    ({ st with logStore := r.2 }, .logRes r.1,
     match r.1 with
     | .ok msg _ => some msg
     | .err _ => none)
  else if name == "update_background_info" then
    let r := update_background_info_and_persist_impl jsonParse
      args.background_update_json st.user false st.bgStore
    ({ st with bgStore := r.2 }, .bgRes r.1,
     match r.1 with
     | .ok msg _ => some msg
     | .err _ => none)
  else if name == "manage_tasks" then
    let r := manage_tasks_and_persist_impl
      (match args.action with | some a => a | none => "None")
      (st.user.getD 0) args.task_description args.task_id args.task_status
      args.deadline now nowTs st.taskStore
    ({ st with taskStore := r.2 }, .taskRes r.1,
     match r.1 with
     | .ok msg _ => some msg
     | .okList ts =>
         if !ts.isEmpty then
           let status_filter := args.task_status
           let header := if strTruthy status_filter then
               "These are your '" ++ status_filter.getD "" ++ "' tasks:"
             else "These are all your current tasks:"
           let lines := ts.map (fun t =>
             let deadline_str := match t.deadline with
               | some d => ", Deadline: " ++ fmtYmdHm d
               | none => ""
             "- **Task " ++ toString t.id ++ "**: " ++ t.description
               ++ " (Status: " ++ t.status ++ deadline_str ++ ")")
           some (String.intercalate "\n" ([header] ++ lines))
         else none
     | .err _ => none)
  else
    (st, .unknownFn ("Unknown function: " ++ name),
     some ("Error: Unknown function '" ++ name ++ "' called."))

/-- `get_chat_response(conversation_history, session_state, user_prompt,
audio_file_path)` from `utils.py`, with the history and the per-user state
threaded explicitly.  Returns the response dict, the history after the
turn, and the state after the turn. -/
def get_chat_response (jsonParse : String → Option Json)
    (conversation_history : List ChatTurn) (st : ChatState)
    (user_prompt0 : Option String) (audio : Option (Option String))
    (modelOutcome : ModelOutcome) (now : PyDateTime) (nowTs : Nat) :
    ChatResponse × List ChatTurn × ChatState :=
  match audio with
  | some none =>
      (⟨"Sorry, I couldn't understand the audio. Please try again.",
        some "Audio transcription failed."⟩, conversation_history, st)
  | _ =>
      let user_prompt := match audio with
        | some (some t) => some t
        | _ => user_prompt0
      if !(strTruthy user_prompt) then
        (⟨"Error: No input provided.", none⟩, conversation_history, st)
      else
        let prompt := user_prompt.getD ""
        let history1 := conversation_history ++ [⟨"user", .text prompt⟩]
        match modelOutcome with
        | .failure emsg =>
            (⟨"Sorry, an error occurred with the AI model: " ++ emsg, none⟩,
             history1, st)
        | .noCandidates =>
            (⟨"Sorry, I couldn't generate a response. Please try again.", none⟩,
             history1, st)
        | .emptyContent =>
            (⟨"Sorry, I couldn't generate a response. Please try again.", none⟩,
             history1, st)
        | .response prts =>
            let llm_text_responses := prts.filterMap (fun p =>
              match p.text with
              | some t => if t == "" then none else some t
              | none => none)
            let function_calls_to_process := prts.filterMap
              (fun p => p.function_call)
            let function_calls_exist := !function_calls_to_process.isEmpty
            let model_turn_content : List HistPart :=
              (if !llm_text_responses.isEmpty then
                [.text (String.intercalate " " llm_text_responses)] else [])
              ++ function_calls_to_process.map (fun fc => .fcall fc.1 fc.2)
            let exec := function_calls_to_process.foldl
              (fun (acc : ChatState × List ChatTurn × List String) fc =>
                let d := dispatch_tool_call jsonParse now nowTs acc.1 fc.1 fc.2
                (d.1,
                 acc.2.1 ++ [⟨"function", .parts [.fresponse fc.1 d.2.1]⟩],
                 acc.2.2 ++ (match d.2.2 with
                   | some m => [m]
                   | none => [])))
              (st, [], [])
            let st' := exec.1
            let functionTurns := exec.2.1
            let ui_update_messages := exec.2.2
            let final_text0 := pyStrip (String.intercalate " " llm_text_responses)
            let ui_update_message := if ui_update_messages.isEmpty then none
              else some (String.intercalate "  \n\n" ui_update_messages)
            let final_text1 :=
              match ui_update_message with
              | some ui => if final_text0 == "" then ui
                  else final_text0 ++ "\n\n" ++ ui
              | none => final_text0
            let history2 := history1 ++ functionTurns
              ++ (if !model_turn_content.isEmpty then
                  [⟨"model", .parts model_turn_content⟩] else [])
            if !function_calls_exist && final_text1 == "" then
              (⟨"I'm not sure how to respond to that.", ui_update_message⟩,
               history2 ++ [⟨"model",
                 .text "I'm not sure how to respond to that."⟩], st')
            else
              (⟨final_text1, ui_update_message⟩, history2, st')

/-- C2: CORRECTED (counterexample).  The claim says that on a model failure
the transcript is left completely unmodified, "not even the user's own
message".  The code appends the user's message to `conversation_history`
BEFORE the model call (utils.py line 693), so after a failed call the
transcript has grown by that one turn: starting from an empty transcript,
prompt "hi" and a failing model call, the transcript afterwards is
[user "hi"], not []. -/
theorem C2_model_failure_counterexample :
    (get_chat_response (fun _ => none) [] ⟨some 7, [], ⟨[], 1⟩, ⟨[], 1⟩⟩
        (some "hi") none (.failure "boom") ⟨2025, 6, 15, 12, 0, 0, 0, some 0⟩
        0).2.1
      = [⟨"user", .text "hi"⟩]
    ∧ ([⟨"user", ChatContent.text "hi"⟩] : List ChatTurn) ≠ [] :=
  ⟨rfl, by simp⟩

/-- C2 (amended): when the model invocation fails, the orchestrator returns
the single user-visible error string for this turn, appends NO model turn
and NO tool turn, and leaves every store untouched — but the user's own
message has already been appended to the transcript, so the transcript
grows by exactly that one user turn. -/
theorem C2_model_failure (jsonParse : String → Option Json)
    (hist : List ChatTurn) (st : ChatState) (prompt emsg : String)
    (now : PyDateTime) (nowTs : Nat) (hprompt : prompt ≠ "") :
    get_chat_response jsonParse hist st (some prompt) none (.failure emsg)
        now nowTs
      = (⟨"Sorry, an error occurred with the AI model: " ++ emsg, none⟩,
         hist ++ [⟨"user", .text prompt⟩], st) := by
  unfold get_chat_response
  dsimp only
  rw [show strTruthy (some prompt) = true by simp [strTruthy, hprompt]]
  rfl

/-- Witness for C2_model_failure. -/
theorem C2_model_failure_witness :
    ("hi" : String) ≠ ""
    ∧ get_chat_response (fun _ => none) [] ⟨some 7, [], ⟨[], 1⟩, ⟨[], 1⟩⟩
        (some "hi") none (.failure "boom") ⟨2025, 6, 15, 12, 0, 0, 0, some 0⟩ 0
      = (⟨"Sorry, an error occurred with the AI model: " ++ "boom", none⟩,
         [] ++ [⟨"user", .text "hi"⟩], ⟨some 7, [], ⟨[], 1⟩, ⟨[], 1⟩⟩) :=
  ⟨by decide,
   C2_model_failure (fun _ => none) [] ⟨some 7, [], ⟨[], 1⟩, ⟨[], 1⟩⟩ "hi" "boom"
     ⟨2025, 6, 15, 12, 0, 0, 0, some 0⟩ 0 (by decide)⟩

/-- C7: CONFIRMED.  Given a model response with one valid `add_log_entry`
call and one call whose operation name is unknown, the turn completes: the
valid call's log entry is persisted (and no other store is touched), BOTH
calls are dispatched in the order received (one function_response turn
each, in order, before the model turn), and the composed reply carries a
visible error segment for the unknown call instead of dropping it. -/
theorem C7_unknown_tool_degrades (jsonParse : String → Option Json)
    (hist : List ChatTurn) (uid : Nat) (bg : List (String × Json))
    (logs : LogStore) (tasks : TaskStore) (prompt t n : String)
    (anyArgs : FCArgs) (now : PyDateTime) (nowTs : Nat)
    (hprompt : prompt ≠ "") (hn1 : n ≠ "add_log_entry")
    (hn2 : n ≠ "update_background_info") (hn3 : n ≠ "manage_tasks") :
    ∃ okMsg,
      get_chat_response jsonParse hist ⟨some uid, bg, logs, tasks⟩ (some prompt)
          none
          (.response [⟨none, some ("add_log_entry",
              ⟨some t, none, none, none, none, none, none, none⟩)⟩,
            ⟨none, some (n, anyArgs)⟩]) now nowTs
        = (⟨okMsg ++ "  \n\n" ++ ("Error: Unknown function '" ++ n ++ "' called."),
            some (okMsg ++ "  \n\n"
              ++ ("Error: Unknown function '" ++ n ++ "' called."))⟩,
           hist ++ [⟨"user", .text prompt⟩]
             ++ [⟨"function", .parts [.fresponse "add_log_entry"
                   (.logRes (.ok okMsg ⟨logs.nextId, uid, some t, "Note", nowTs⟩))]⟩,
                 ⟨"function", .parts [.fresponse n
                   (.unknownFn ("Unknown function: " ++ n))]⟩]
             ++ [⟨"model", .parts [.fcall "add_log_entry"
                   ⟨some t, none, none, none, none, none, none, none⟩,
                 .fcall n anyArgs]⟩],
           ⟨some uid, bg,
            LogStore.mk (logs.entries
              ++ [⟨logs.nextId, uid, some t, "Note", nowTs⟩]) (logs.nextId + 1),
            tasks⟩) := by
  have e1 : (n == "add_log_entry") = false := by simp [hn1]
  have e2 : (n == "update_background_info") = false := by simp [hn2]
  have e3 : (n == "manage_tasks") = false := by simp [hn3]
  refine ⟨"Log added successfully!  \n- **Content:** '"
      ++ (if t.length > 100 then t.take 100 ++ "..." else t)
      ++ "'  \n- **Category:** " ++ "Note", ?_⟩
  unfold get_chat_response
  dsimp only
  rw [show strTruthy (some prompt) = true by simp [strTruthy, hprompt]]
  simp only [List.filterMap_cons, List.filterMap_nil, List.foldl_cons,
    List.foldl_nil, List.map_cons, List.map_nil, dispatch_tool_call,
    add_log_entry_and_persist_impl, e1, e2, e3]
  rfl

/-- Witness for C7_unknown_tool_degrades at a concrete turn. -/
theorem C7_unknown_tool_degrades_witness :
    ("hi" : String) ≠ ""
    ∧ ("frobnicate" : String) ≠ "add_log_entry"
    ∧ ("frobnicate" : String) ≠ "update_background_info"
    ∧ ("frobnicate" : String) ≠ "manage_tasks"
    ∧ ∃ okMsg,
      get_chat_response (fun _ => none) [] ⟨some 7, [], ⟨[], 1⟩, ⟨[], 1⟩⟩
          (some "hi") none
          (.response [⟨none, some ("add_log_entry",
              ⟨some "Went for a run", none, none, none, none, none, none, none⟩)⟩,
            ⟨none, some ("frobnicate",
              ⟨none, none, none, none, none, none, none, none⟩)⟩])
          ⟨2025, 6, 15, 12, 0, 0, 0, some 0⟩ 3
        = (⟨okMsg ++ "  \n\n"
              ++ ("Error: Unknown function '" ++ "frobnicate" ++ "' called."),
            some (okMsg ++ "  \n\n"
              ++ ("Error: Unknown function '" ++ "frobnicate" ++ "' called."))⟩,
           [] ++ [⟨"user", .text "hi"⟩]
             ++ [⟨"function", .parts [.fresponse "add_log_entry"
                   (.logRes (.ok okMsg ⟨1, 7, some "Went for a run", "Note", 3⟩))]⟩,
                 ⟨"function", .parts [.fresponse "frobnicate"
                   (.unknownFn ("Unknown function: " ++ "frobnicate"))]⟩]
             ++ [⟨"model", .parts [.fcall "add_log_entry"
                   ⟨some "Went for a run", none, none, none, none, none, none, none⟩,
                 .fcall "frobnicate"
                   ⟨none, none, none, none, none, none, none, none⟩]⟩],
           ⟨some 7, [],
            LogStore.mk ([] ++ [⟨1, 7, some "Went for a run", "Note", 3⟩]) (1 + 1),
            ⟨[], 1⟩⟩) :=
  ⟨by decide, by decide, by decide, by decide,
   C7_unknown_tool_degrades (fun _ => none) [] 7 [] ⟨[], 1⟩ ⟨[], 1⟩ "hi"
     "Went for a run" "frobnicate" ⟨none, none, none, none, none, none, none, none⟩
     ⟨2025, 6, 15, 12, 0, 0, 0, some 0⟩ 3 (by decide) (by decide) (by decide)
     (by decide)⟩

end Tracker
